import Mathlib

/-!
Verification development for the `ha_mcp` Home Assistant client.

Shallow embedding of `src/ha_mcp/ha_client/websocket.py`
(`HAWebSocketClient`) and `src/ha_mcp/ha_client/rest.py`
(`HARestClient._request`).  Python dicts of parsed JSON are modelled as
association lists of `JVal`; the client object's mutable attributes are
the fields of `ConnState`; each region of code between two `await`
suspension points is modelled as one pure state-transforming function,
and the cooperative interleaving of `send_command` callers, the
background listener and the reconnect loop is modelled as a trace of
such atomic steps.
-/

namespace HaMcp

/-- JSON values, the payloads carried by the WebSocket and REST APIs. -/
inductive JVal where
  | null
  | bool (b : Bool)
  | num (n : Int)
  | str (s : String)
  | arr (xs : List JVal)
  | obj (fields : List (String × JVal))

/-- A parsed JSON object / Python dict: insertion-ordered key-value pairs. -/
abbrev JObj := List (String × JVal)

/-- `d.get(k)` on a Python dict: `some v` when the key is present, else `none`. -/
def jget (o : JObj) (k : String) : Option JVal :=
  (o.find? (fun p => p.1 == k)).map (fun p => p.2)

/-- Python truthiness of a parsed JSON value (`not value` in the source
negates this). -/
def JVal.truthy : JVal → Bool
  | .null => false
  | .bool b => b
  | .num n => n != 0
  | .str s => s != ""
  | .arr xs => !xs.isEmpty
  | .obj fs => !fs.isEmpty

/-- Python `str()` of a parsed JSON value, as used by f-string interpolation
in the error messages.  Scalar cases are exact; the array/object cases are
placeholders — no code path in the claims formats a composite value. -/
def JVal.fmt : JVal → String
  | .null => "None"
  | .bool b => if b then "True" else "False"
  | .num n => toString n
  | .str s => s
  | .arr _ => "[...]"
  | .obj _ => "\x7b...\x7d"

/-- `str()` of `d.get(k)` where a missing key is Python `None`. -/
def fmtOpt : Option JVal → String
  | none => "None"
  | some v => v.fmt

/-- `d.get(k, dflt)` followed by f-string interpolation, `dflt` a string. -/
def jgetStr (o : JObj) (k : String) (dflt : String) : String :=
  match jget o k with
  | some v => v.fmt
  | none => dflt

/-- The error taxonomy of `ha_client/models.py`: each class carries its
message string. -/
inductive HAErr where
  | HAConnectionError (msg : String)
  | HAAuthError (msg : String)
  | HANotFoundError (msg : String)
  | HAValidationError (msg : String)
  | HAConnectionLost (msg : String)

/-- The state of one `asyncio.Future` created by `send_command`:
single-assignment, resolved at most once with a result or an exception,
or cancelled (as `asyncio.wait_for` does on timeout). -/
inductive FutureVal where
  | unresolved
  | result (msg : JObj)
  | failure (e : HAErr)
  | cancelled

/-- The mutable attributes of `HAWebSocketClient`.

`futures` records every future ever created, keyed by its request id
(callers hold their future after it leaves the table); `pendingKeys` is
the key set of the `self._pending` correlation table.  `wsOpen`
abbreviates `self._ws is not None and not self._ws.closed`, and
`sessionOpen` likewise for `self._session`. -/
structure ConnState where
  url : String
  token : String
  msg_id : Int
  pendingKeys : List Int
  futures : Int → FutureVal
  connected : Bool
  shouldReconnect : Bool
  reconnectDelay : Nat
  wsOpen : Bool
  sessionOpen : Bool
  listenerRunning : Bool

/-- `HAWebSocketClient.__init__`: counter at 0, empty table, not
connected, `_should_reconnect = True`, backoff at its floor of 1. -/
def initState (url token : String) : ConnState :=
  { url := url, token := token, msg_id := 0, pendingKeys := [],
    futures := fun _ => .unresolved, connected := false,
    shouldReconnect := true, reconnectDelay := 1,
    wsOpen := false, sessionOpen := false, listenerRunning := false }

/-- `self._max_reconnect_delay` (never mutated). -/
def maxReconnectDelay : Nat := 60

/-- The guard of `send_command` (negation of
`not self._connected or self._ws is None or self._ws.closed`). -/
def sendGuardOk (s : ConnState) : Bool :=
  s.connected && s.wsOpen

/-- The entry check of `send_command`: raises `HAConnectionError` when the
client is not currently connected. -/
def sendCommandStart (s : ConnState) : Except HAErr Unit :=
  if sendGuardOk s then .ok ()
  else .error (.HAConnectionError "Not connected to Home Assistant")

/-- The id-allocation and registration region of `send_command`
(`self._msg_id += 1; future = loop.create_future();
self._pending[msg_id] = future`): returns the allocated id and the
updated state. -/
def registerNext (s : ConnState) : Int × ConnState :=
  (s.msg_id + 1,
    { s with msg_id := s.msg_id + 1,
             pendingKeys := s.pendingKeys ++ [s.msg_id + 1],
             futures := fun k =>
               if k = s.msg_id + 1 then .unresolved else s.futures k })

/-- The ids allocated by `n` successive `send_command` calls. -/
def allocIds : ConnState → Nat → List Int
  | _, 0 => []
  | s, n + 1 => (registerNext s).1 :: allocIds (registerNext s).2 n

/-- One `send_command` call reaching (or failing) its registration step:
with the guard false the call raises before touching any state. -/
def sendAttemptStep (s : ConnState) : ConnState :=
  if sendGuardOk s then (registerNext s).2 else s

/-- `response.get("success", True)` put through Python truthiness. -/
def respSuccess (r : JObj) : Bool :=
  match jget r "success" with
  | some v => v.truthy
  | none => true

/-- The response-interpretation tail of `send_command`: a response with a
falsy `success` is turned into an `HAConnectionError` carrying the
server-reported code and message (`error.get("code", "unknown")`,
`error.get("message", "Unknown error")`); otherwise
`response.get("result", response)` is returned.  A non-dict `error`
value would raise `AttributeError` in Python; this layer never receives
one, so it is modelled like the absent-key default `{}`. -/
def handleResponse (msg_type : String) (r : JObj) : Except HAErr JVal :=
  if respSuccess r then
    .ok (match jget r "result" with
         | some v => v
         | none => .obj r)
  else
    .error (.HAConnectionError
      ("Command " ++ msg_type ++ " failed [" ++
        (jgetStr (match jget r "error" with
                  | some (.obj fs) => fs
                  | _ => []) "code" "unknown") ++ "]: " ++
        (jgetStr (match jget r "error" with
                  | some (.obj fs) => fs
                  | _ => []) "message" "Unknown error")))

/-- How the `await asyncio.wait_for(future, timeout)` in `send_command`
finished. -/
inductive WaitOutcome where
  | response (msg : JObj)
  | timedOut
  | cancelled

/-- What a `send_command` call can raise: an `HAErr` from this layer, or
the `asyncio.TimeoutError` / `asyncio.CancelledError` that the code
re-raises as-is after popping its pending entry. -/
inductive SendErr where
  | ha (e : HAErr)
  | timeout
  | cancelled

/-- `self._pending.pop(msg_id, None)` after `asyncio.wait_for` cancelled
the future (timeout) or the caller was cancelled. -/
def popPendingTimeout (s : ConnState) (msg_id : Int) : ConnState :=
  { s with pendingKeys := s.pendingKeys.erase msg_id,
           futures := fun k =>
             if k = msg_id then
               match s.futures msg_id with
               | .unresolved => .cancelled
               | o => o
             else s.futures k }

/-- The region of `send_command` after its wait finishes: on timeout or
cancellation the pending entry is removed and that same error is
re-raised unchanged; on a response the payload is interpreted by
`handleResponse` with no state change. -/
def afterWait (s : ConnState) (msg_id : Int) (msg_type : String) :
    WaitOutcome → Except SendErr JVal × ConnState
  | .timedOut => (.error .timeout, popPendingTimeout s msg_id)
  | .cancelled => (.error .cancelled, popPendingTimeout s msg_id)
  | .response r =>
      match handleResponse msg_type r with
      | .error e => (.error (.ha e), s)
      | .ok v => (.ok v, s)

/-- `msg.get("id")` when it is an integer usable as a correlation key;
any other value fails the `msg_id in self._pending` check exactly like
`none` does. -/
def msgIdOf (msg : JObj) : Option Int :=
  match jget msg "id" with
  | some (.num n) => some n
  | _ => none

/-- `future = self._pending.pop(msg_id); if not future.done():
future.set_result(msg)` — resolve future `n` with `msg` unless it is
already done. -/
def resolveFuture (s : ConnState) (n : Int) (msg : JObj) : Int → FutureVal :=
  fun k =>
    if k = n then
      match s.futures n with
      | .unresolved => .result msg
      | o => o
    else s.futures k

/-- One frame delivered to the listener's `async for` loop. -/
inductive Frame where
  | text (msg : JObj)
  | closed
  | wsError

/-- Whether the listener loop continues after a frame or breaks out. -/
inductive StepOut where
  | cont (s : ConnState)
  | stop (s : ConnState)

/-- One iteration of `_listener`'s `async for` loop: a TEXT frame whose
`id` matches a pending entry resolves and removes that entry; any other
TEXT frame (event or unhandled) is only logged; CLOSED/CLOSING/CLOSE and
ERROR frames break the loop. -/
def listenerStep (s : ConnState) : Frame → StepOut
  | .text msg =>
      match msgIdOf msg with
      | some n =>
          if n ∈ s.pendingKeys then
            .cont { s with pendingKeys := s.pendingKeys.erase n,
                           futures := resolveFuture s n msg }
          else .cont s
      | none => .cont s
  | .closed => .stop s
  | .wsError => .stop s

/-- Fail every still-pending, not-yet-done future with `e`
(`for future in self._pending.values(): if not future.done():
future.set_exception(e)`). -/
def failPending (s : ConnState) (e : HAErr) : Int → FutureVal :=
  fun k =>
    if k ∈ s.pendingKeys then
      match s.futures k with
      | .unresolved => .failure e
      | o => o
    else s.futures k

/-- The drop-handling tail of `_listener` (after the loop exits):
`self._connected = False`, every pending future failed with
`HAConnectionLost`, table cleared.  The possible hand-off to
`_reconnect` is modelled separately. -/
def listenerDrop (s : ConnState) : ConnState :=
  { s with connected := false,
           futures := failPending s
             (.HAConnectionLost "Connection lost while awaiting response"),
           pendingKeys := [] }

/-- `disconnect()`: clear `_should_reconnect` and `_connected`, cancel
and await the listener, close socket and session, fail remaining pending
futures with `HAConnectionLost`, clear the table. -/
def disconnect (s : ConnState) : ConnState :=
  let s2 : ConnState :=
    { s with shouldReconnect := false, connected := false,
             listenerRunning := false, wsOpen := false, sessionOpen := false }
  { s2 with futures := failPending s2
              (.HAConnectionLost "WebSocket disconnected while awaiting response"),
            pendingKeys := [] }

/-- `_authenticate()`: expect `auth_required`, send the auth frame, then
accept `auth_ok`, reject `auth_invalid` with `HAAuthError`, and reject
anything else with `HAConnectionError`. -/
def authenticate (greeting authResult : JObj) : Except HAErr Unit :=
  match jget greeting "type" with
  | some (.str "auth_required") =>
      match jget authResult "type" with
      | some (.str "auth_ok") => .ok ()
      | some (.str "auth_invalid") =>
          .error (.HAAuthError
            ("Authentication failed: " ++
              jgetStr authResult "message" "Invalid access token"))
      | other =>
          .error (.HAConnectionError
            ("Unexpected auth response type: " ++ fmtOpt other))
  | other =>
      .error (.HAConnectionError
        ("Expected auth_required but got: " ++ fmtOpt other))

/-- Whether `aiohttp.ClientSession()` + `ws_connect` succeeded. -/
inductive DialResult where
  | ok
  | fail (msg : String)

/-- `connect()`: set `_should_reconnect = True`; on a dial failure close
the fresh session and raise `HAConnectionError`; otherwise run the
handshake — note that when `_authenticate` raises, the error propagates
with the socket and session still open and no listener started; on
success mark connected, reset the backoff to 1 and start the listener. -/
def connectRun (s : ConnState) (dial : DialResult)
    (greeting authResult : JObj) : Except HAErr Unit × ConnState :=
  let s0 : ConnState := { s with shouldReconnect := true }
  match dial with
  | .fail m =>
      (.error (.HAConnectionError ("Failed to connect to " ++ s.url ++ ": " ++ m)),
       { s0 with sessionOpen := false })
  | .ok =>
      let s1 : ConnState := { s0 with sessionOpen := true, wsOpen := true }
      match authenticate greeting authResult with
      | .error e => (.error e, s1)
      | .ok _ =>
          (.ok (),
           { s1 with connected := true, reconnectDelay := 1,
                     listenerRunning := true })

/-- The successful arm of one `_reconnect` iteration: fresh socket and
session, authenticated, `_connected = True`, backoff reset to 1, new
listener task. -/
def reconnectSuccessState (s : ConnState) : ConnState :=
  { s with connected := true, reconnectDelay := 1,
           wsOpen := true, sessionOpen := true, listenerRunning := true }

/-- The failure arm of one `_reconnect` iteration:
`self._reconnect_delay = min(self._reconnect_delay * 2,
self._max_reconnect_delay)` and the failed socket/session discarded. -/
def reconnectFailCleanup (s : ConnState) : ConnState :=
  { s with reconnectDelay := min (s.reconnectDelay * 2) maxReconnectDelay,
           wsOpen := false, sessionOpen := false }

/-- `_reconnect()`, its unbounded `while self._should_reconnect` loop
driven by the list of attempt outcomes (`true` = the dial + handshake of
that iteration succeeds); returns the final state and the number of
attempts made. -/
def reconnectRun : ConnState → List Bool → ConnState × Nat
  | s, [] => (s, 0)
  | s, ok :: rest =>
      if s.shouldReconnect then
        if ok then (reconnectSuccessState s, 1)
        else
          ((reconnectRun (reconnectFailCleanup s) rest).1,
           (reconnectRun (reconnectFailCleanup s) rest).2 + 1)
      else (s, 0)

/-- The successive values of `self._reconnect_delay` slept on by
`_reconnect` (one per attempt actually made). -/
def reconnectDelays : ConnState → List Bool → List Nat
  | _, [] => []
  | s, ok :: rest =>
      if s.shouldReconnect then
        s.reconnectDelay ::
          (if ok then [] else reconnectDelays (reconnectFailCleanup s) rest)
      else []

/-- One atomic step of the cooperatively-scheduled system: a
`send_command` call reaching its registration, an inbound frame handled
by the listener, the listener's drop handling, a caller's timeout or
cancellation pop, or a `disconnect()` call. -/
inductive TraceEv where
  | send
  | frame (f : Frame)
  | drop
  | timeoutPop (msg_id : Int)
  | disconnectEv

/-- Apply one trace event to the client state. -/
def traceStep (s : ConnState) : TraceEv → ConnState
  | .send => sendAttemptStep s
  | .frame f =>
      match listenerStep s f with
      | .cont s' => s'
      | .stop s' => s'
  | .drop => listenerDrop s
  | .timeoutPop i => popPendingTimeout s i
  | .disconnectEv => disconnect s

/-- Run a trace of atomic steps (one interleaving of callers, listener
and lifecycle operations). -/
def runTrace : ConnState → List TraceEv → ConnState
  | s, [] => s
  | s, e :: es => runTrace (traceStep s e) es

/-- Correlation soundness: every future that has been resolved with a
response message was resolved with a message whose `id` field is that
future's own request id. -/
def FutOk (s : ConnState) : Prop :=
  ∀ i msg, s.futures i = .result msg → jget msg "id" = some (.num i)

/-- An operation issued after `disconnect()` (no new `connect()`):
a `send_command` attempt, a stray frame, or a listener-exit handling
including its conditional `_reconnect` hand-off with the given attempt
outcomes available. -/
inductive PostOp where
  | sendAttempt
  | frame (f : Frame)
  | dropHandling (attempts : List Bool)

/-- Apply one post-disconnect operation. -/
def applyPost (s : ConnState) : PostOp → ConnState
  | .sendAttempt => sendAttemptStep s
  | .frame f =>
      match listenerStep s f with
      | .cont s' => s'
      | .stop s' => s'
  | .dropHandling attempts =>
      if (listenerDrop s).shouldReconnect then
        (reconnectRun (listenerDrop s) attempts).1
      else listenerDrop s

/-- How many reconnection attempts this operation performs. -/
def postAttemptCount (s : ConnState) : PostOp → Nat
  | .dropHandling attempts =>
      if (listenerDrop s).shouldReconnect then
        (reconnectRun (listenerDrop s) attempts).2
      else 0
  | _ => 0

/-- Run a list of post-disconnect operations. -/
def runPost : ConnState → List PostOp → ConnState
  | s, [] => s
  | s, op :: ops => runPost (applyPost s op) ops

/-- Total reconnection attempts performed along a post-disconnect run. -/
def countPost : ConnState → List PostOp → Nat
  | _, [] => 0
  | s, op :: ops => postAttemptCount s op + countPost (applyPost s op) ops

/-! ## REST client (`HARestClient._request`) -/

/-- Does `l` start with `p`? -/
def listStarts : List Char → List Char → Bool
  | _, [] => true
  | [], _ :: _ => false
  | a :: as, b :: bs => a == b && listStarts as bs

/-- Does `needle` occur as a contiguous run inside `hay`? -/
def listHasSub : List Char → List Char → Bool
  | [], needle => needle.isEmpty
  | h :: t, needle => listStarts (h :: t) needle || listHasSub t needle

/-- Python `needle in hay` on strings, as in `"json" in content_type`. -/
def strHasSub (hay needle : String) : Bool :=
  listHasSub hay.toList needle.toList

/-- Python `str.upper()` as applied to the HTTP method name (ASCII). -/
def pyUpper (s : String) : String := ⟨s.data.map Char.toUpper⟩

/-- An HTTP response as `_request` observes it: status code, reason
phrase (what `ClientResponseError.message` carries), parsed
`content_type`, body text, and the value `resp.json()` would decode. -/
structure HttpResp where
  status : Nat
  reason : String
  contentType : String
  body : String
  jsonBody : JVal

/-- The outcome of the underlying `aiohttp` call: a response, or an
`aiohttp.ClientConnectionError` mid-request. -/
inductive HttpOutcome where
  | response (r : HttpResp)
  | transportError (msg : String)

/-- What `_request` returns on success. -/
inductive RestValue where
  | jsonValue (v : JVal)
  | textValue (s : String)

/-- `HARestClient._request`: the not-connected check, the explicit
401/404/400 mappings, `resp.raise_for_status()` (which raises only for
status ≥ 400, caught and rewrapped with the status and reason phrase),
the transport-failure catch, and the JSON-vs-text branch on the content
type. -/
def restRequest (sessionUp : Bool) (method path : String)
    (o : HttpOutcome) : Except HAErr RestValue :=
  if !sessionUp then
    .error (.HAConnectionError
      "REST client is not connected – call connect() first")
  else
    match o with
    | .transportError m =>
        .error (.HAConnectionError ("Connection error: " ++ m))
    | .response r =>
        if r.status = 401 then
          .error (.HAAuthError ("Authentication failed (401): " ++ r.body))
        else if r.status = 404 then
          .error (.HANotFoundError
            ("Resource not found (404): " ++ path ++ " – " ++ r.body))
        else if r.status = 400 then
          .error (.HAValidationError ("Validation error (400): " ++ r.body))
        else if 400 ≤ r.status then
          .error (.HAConnectionError
            ("HTTP " ++ toString r.status ++ " from " ++ pyUpper method ++
              " " ++ path ++ ": " ++ r.reason))
        else if strHasSub r.contentType "json" then
          .ok (.jsonValue r.jsonBody)
        else
          .ok (.textValue r.body)

/-! ## Shared lemmas -/

/-- A usable correlation id determines the message's `id` field. -/
theorem msgIdOf_jget (msg : JObj) (n : Int) (h : msgIdOf msg = some n) :
    jget msg "id" = some (.num n) := by
  unfold msgIdOf at h
  cases hg : jget msg "id" with
  | none => rw [hg] at h; simp at h
  | some v =>
      rw [hg] at h
      cases v with
      | num k => simp at h; rw [h]
      | null => simp at h
      | bool b => simp at h
      | str s => simp at h
      | arr xs => simp at h
      | obj fs => simp at h

/-- `failPending` never resolves a future with a result, so correlation
soundness survives it. -/
theorem futOk_of_failPending (t : ConnState) (e : HAErr)
    (h : ∀ i msg, t.futures i = .result msg → jget msg "id" = some (.num i))
    (i : Int) (msg : JObj) (hi : failPending t e i = .result msg) :
    jget msg "id" = some (.num i) := by
  simp only [failPending] at hi
  by_cases hin : i ∈ t.pendingKeys
  · rw [if_pos hin] at hi
    cases hf : t.futures i with
    | unresolved => rw [hf] at hi; simp at hi
    | result m0 => exact h i msg (by rw [hf]; rw [hf] at hi; exact hi)
    | failure e0 => rw [hf] at hi; simp at hi
    | cancelled => rw [hf] at hi; simp at hi
  · rw [if_neg hin] at hi; exact h i msg hi

/-- A TEXT frame never exits the listener loop and never touches the
`connected`/`should_reconnect` flags or the backoff. -/
theorem listenerStep_text_cont (s : ConnState) (msg : JObj) :
    ∃ s', listenerStep s (.text msg) = .cont s' ∧
      s'.connected = s.connected ∧ s'.shouldReconnect = s.shouldReconnect ∧
      s'.reconnectDelay = s.reconnectDelay := by
  cases hm : msgIdOf msg with
  | none => exact ⟨s, by simp [listenerStep, hm], rfl, rfl, rfl⟩
  | some n =>
      by_cases hn : n ∈ s.pendingKeys
      · exact ⟨{ s with pendingKeys := s.pendingKeys.erase n,
                        futures := resolveFuture s n msg },
               by simp [listenerStep, hm, hn], rfl, rfl, rfl⟩
      · exact ⟨s, by simp [listenerStep, hm, hn], rfl, rfl, rfl⟩

/-! ## Claims -/

/-- C2: if the connection drops (the listener's drop handling runs) with
any set of still-unresolved pending requests, every one of them is
failed with `HAConnectionLost`, the correlation table is empty
immediately afterward, and the client is marked not connected. -/
theorem c2_drop_fails_all_pending (s : ConnState) :
    (listenerDrop s).pendingKeys = [] ∧
    (listenerDrop s).connected = false ∧
    ∀ i ∈ s.pendingKeys, s.futures i = .unresolved →
      (listenerDrop s).futures i =
        .failure (.HAConnectionLost "Connection lost while awaiting response") := by
  refine ⟨rfl, rfl, ?_⟩
  intro i hi hf
  replace hf : failPending s
      (.HAConnectionLost "Connection lost while awaiting response") i =
      .failure (.HAConnectionLost "Connection lost while awaiting response") := by
    simp only [failPending]
    rw [if_pos hi, hf]
  exact hf

/-- C2 witness: a drop with requests 5 and 7 outstanding fails request 5
with `HAConnectionLost`. -/
theorem c2_drop_fails_all_pending_witness :
    (listenerDrop { initState "u" "t" with pendingKeys := [5, 7] }).futures 5 =
      .failure (.HAConnectionLost "Connection lost while awaiting response") :=
  (c2_drop_fails_all_pending
    { initState "u" "t" with pendingKeys := [5, 7] }).2.2 5 (by simp) rfl

/-- C3 (code bug evidence): with a well-formed `auth_required` greeting
and an `auth_invalid` reply, `connect()` raises `HAAuthError` and starts
no listener as the claim says, but — because the `try` in `connect`
covers only the dial, not `_authenticate` — the socket and session are
left open, contradicting the claim that the socket is closed. -/
theorem c3_auth_invalid_socket_left_open :
    (connectRun (initState "ws://ha/api/websocket" "tok") .ok
        [("type", JVal.str "auth_required")]
        [("type", JVal.str "auth_invalid"), ("message", JVal.str "bad token")]).1 =
      .error (.HAAuthError "Authentication failed: bad token") ∧
    (connectRun (initState "ws://ha/api/websocket" "tok") .ok
        [("type", JVal.str "auth_required")]
        [("type", JVal.str "auth_invalid"), ("message", JVal.str "bad token")]).2.listenerRunning =
      false ∧
    (connectRun (initState "ws://ha/api/websocket" "tok") .ok
        [("type", JVal.str "auth_required")]
        [("type", JVal.str "auth_invalid"), ("message", JVal.str "bad token")]).2.wsOpen =
      true ∧
    (connectRun (initState "ws://ha/api/websocket" "tok") .ok
        [("type", JVal.str "auth_required")]
        [("type", JVal.str "auth_invalid"), ("message", JVal.str "bad token")]).2.sessionOpen =
      true ∧
    (connectRun (initState "ws://ha/api/websocket" "tok") .ok
        [("type", JVal.str "auth_required")]
        [("type", JVal.str "unexpected")]).1 =
      .error (.HAConnectionError "Unexpected auth response type: unexpected") ∧
    (connectRun (initState "ws://ha/api/websocket" "tok") .ok
        [("type", JVal.str "auth_required")]
        [("type", JVal.str "unexpected")]).2.wsOpen = true :=
  ⟨rfl, rfl, rfl, rfl, rfl, rfl⟩

/-- C7: when the wait in `send_command` times out, the pending entry for
that call is removed from the correlation table and exactly the timeout
error is re-raised — not an `HAErr` of any kind (in particular not
`HAConnectionLost`). -/
theorem c7_timeout_pops_and_propagates (s : ConnState) (i : Int) (t : String) :
    (afterWait s i t .timedOut).1 = .error .timeout ∧
    (afterWait s i t .timedOut).2.pendingKeys = s.pendingKeys.erase i :=
  ⟨rfl, rfl⟩

/-- C8 counterexample: a 304 response (non-2xx) is returned as a normal
text body rather than raising `HAConnectionError`, and a 500 response
raises an `HAConnectionError` whose message carries the status and the
HTTP reason phrase but not the response body (`boom-body` is absent). -/
theorem c8_non2xx_counterexample :
    restRequest true "get" "/api/states"
        (.response ⟨304, "Not Modified", "text/plain", "cached-body", .null⟩) =
      .ok (.textValue "cached-body") ∧
    restRequest true "get" "/api/states"
        (.response ⟨500, "Internal Server Error", "text/html", "boom-body", .null⟩) =
      .error (.HAConnectionError
        "HTTP 500 from GET /api/states: Internal Server Error") :=
  ⟨rfl, rfl⟩

/-- C8 (amended): `request()` before `connect()` raises
`HAConnectionError`; a transport failure raises `HAConnectionError`;
401 → `HAAuthError`, 404 → `HANotFoundError`, 400 → `HAValidationError`;
any other status ≥ 400 → `HAConnectionError` carrying the status and the
HTTP reason phrase; every status below 400 (2xx and 3xx alike) yields
the decoded JSON value when the content type contains "json" and the raw
text otherwise. -/
theorem c8_amended_status_mapping (method path m : String) (r : HttpResp) :
    (restRequest false method path (.response r) =
      .error (.HAConnectionError
        "REST client is not connected – call connect() first")) ∧
    (restRequest false method path (.transportError m) =
      .error (.HAConnectionError
        "REST client is not connected – call connect() first")) ∧
    (restRequest true method path (.transportError m) =
      .error (.HAConnectionError ("Connection error: " ++ m))) ∧
    (r.status = 401 → restRequest true method path (.response r) =
      .error (.HAAuthError ("Authentication failed (401): " ++ r.body))) ∧
    (r.status = 404 → restRequest true method path (.response r) =
      .error (.HANotFoundError
        ("Resource not found (404): " ++ path ++ " – " ++ r.body))) ∧
    (r.status = 400 → restRequest true method path (.response r) =
      .error (.HAValidationError ("Validation error (400): " ++ r.body))) ∧
    (400 ≤ r.status → r.status ≠ 400 → r.status ≠ 401 → r.status ≠ 404 →
      restRequest true method path (.response r) =
        .error (.HAConnectionError
          ("HTTP " ++ toString r.status ++ " from " ++ pyUpper method ++
            " " ++ path ++ ": " ++ r.reason))) ∧
    (r.status < 400 → strHasSub r.contentType "json" = true →
      restRequest true method path (.response r) = .ok (.jsonValue r.jsonBody)) ∧
    (r.status < 400 → strHasSub r.contentType "json" = false →
      restRequest true method path (.response r) = .ok (.textValue r.body)) := by
  refine ⟨rfl, rfl, rfl, ?_, ?_, ?_, ?_, ?_, ?_⟩
  · intro h; simp [restRequest, h]
  · intro h; simp [restRequest, h]
  · intro h; simp [restRequest, h]
  · intro hge h400 h401 h404
    simp [restRequest, h400, h401, h404, hge]
  · intro hlt hj
    have h401 : ¬ r.status = 401 := by omega
    have h404 : ¬ r.status = 404 := by omega
    have h400 : ¬ r.status = 400 := by omega
    have hge : ¬ 400 ≤ r.status := by omega
    simp [restRequest, h401, h404, h400, hge, hj]
  · intro hlt hj
    have h401 : ¬ r.status = 401 := by omega
    have h404 : ¬ r.status = 404 := by omega
    have h400 : ¬ r.status = 400 := by omega
    have hge : ¬ 400 ≤ r.status := by omega
    simp [restRequest, h401, h404, h400, hge, hj]

/-- C8 witness: a 404 response yields `HANotFoundError` with the
source's message. -/
theorem c8_amended_status_mapping_witness :
    restRequest true "GET" "/api/x"
        (.response ⟨404, "Not Found", "application/json", "nope", .null⟩) =
      .error (.HANotFoundError "Resource not found (404): /api/x – nope") :=
  (c8_amended_status_mapping "GET" "/api/x" "m"
      ⟨404, "Not Found", "application/json", "nope", .null⟩).2.2.2.2.1 rfl

/-- Every id allocated from `s` by a run of `send_command` calls exceeds
the counter value `s` started with. -/
theorem allocIds_msg_id_lt (n : Nat) :
    ∀ (s : ConnState) (i : Int), i ∈ allocIds s n → s.msg_id < i := by
  induction n with
  | zero => intro s i h; simp [allocIds] at h
  | succ m ih =>
      intro s i h
      simp only [allocIds, List.mem_cons] at h
      rcases h with h | h
      · subst h
        show s.msg_id < s.msg_id + 1
        omega
      · have h2 := ih (registerNext s).2 i h
        have h3 : (registerNext s).2.msg_id = s.msg_id + 1 := rfl
        omega

/-- C9: the request IDs allocated by successive `send_command` calls on
one connection are pairwise strictly increasing in issue order, and no
ID is ever allocated twice. -/
theorem c9_ids_strictly_increasing (s : ConnState) (n : Nat) :
    (allocIds s n).Pairwise (· < ·) ∧ (allocIds s n).Nodup := by
  have hp : ∀ (m : Nat) (t : ConnState), (allocIds t m).Pairwise (· < ·) := by
    intro m
    induction m with
    | zero => intro t; simp [allocIds]
    | succ k ih =>
        intro t
        simp only [allocIds]
        refine List.pairwise_cons.mpr ⟨?_, ih _⟩
        intro i hi
        have h2 := allocIds_msg_id_lt k (registerNext t).2 i hi
        have h3 : (registerNext t).2.msg_id = t.msg_id + 1 := rfl
        show (registerNext t).1 < i
        have h4 : (registerNext t).1 = t.msg_id + 1 := rfl
        omega
  exact ⟨hp n s, (hp n s).imp (fun h => h.ne)⟩

/-- The first delay slept on by a `_reconnect` run is the entry value of
`self._reconnect_delay`. -/
theorem reconnectDelays_head_eq (s : ConnState) (outs : List Bool) (d : Nat)
    (h : (reconnectDelays s outs).head? = some d) : d = s.reconnectDelay := by
  cases outs with
  | nil => simp [reconnectDelays] at h
  | cons ok rest =>
      cases hr : s.shouldReconnect <;> simp [reconnectDelays, hr] at h
      exact h.symm

/-- Every delay slept on by `_reconnect` stays within the floor of 1 and
the cap of 60. -/
theorem reconnectDelays_mem_bounds (outs : List Bool) :
    ∀ s : ConnState, 1 ≤ s.reconnectDelay → s.reconnectDelay ≤ 60 →
      ∀ d ∈ reconnectDelays s outs, 1 ≤ d ∧ d ≤ 60 := by
  induction outs with
  | nil => intro s h1 h2 d hd; simp [reconnectDelays] at hd
  | cons ok rest ih =>
      intro s h1 h2 d hd
      cases hr : s.shouldReconnect
      · simp [reconnectDelays, hr] at hd
      · simp only [reconnectDelays, hr, if_true, List.mem_cons] at hd
        rcases hd with hd | hd
        · subst hd; exact ⟨h1, h2⟩
        · cases ok with
          | true => simp at hd
          | false =>
              refine ih (reconnectFailCleanup s) ?_ ?_ d hd
              · show 1 ≤ min (s.reconnectDelay * 2) maxReconnectDelay
                exact Nat.le_min.mpr ⟨by omega, by simp [maxReconnectDelay]⟩
              · show min (s.reconnectDelay * 2) maxReconnectDelay ≤ 60
                exact Nat.min_le_right _ _

/-- The delays slept on by `_reconnect` across consecutive failures are
monotonically non-decreasing. -/
theorem reconnectDelays_chain_le (outs : List Bool) :
    ∀ s : ConnState, s.reconnectDelay ≤ 60 →
      List.Chain' (· ≤ ·) (reconnectDelays s outs) := by
  induction outs with
  | nil => intro s h; simp [reconnectDelays]
  | cons ok rest ih =>
      intro s h
      cases hr : s.shouldReconnect
      · simp [reconnectDelays, hr]
      · cases ok with
        | true => simp [reconnectDelays, hr]
        | false =>
            simp only [reconnectDelays, hr, if_true, Bool.false_eq_true,
              if_false]
            rw [List.chain'_cons']
            constructor
            · intro b hb
              rw [reconnectDelays_head_eq _ _ _ hb]
              show s.reconnectDelay ≤ min (s.reconnectDelay * 2) maxReconnectDelay
              exact Nat.le_min.mpr ⟨by omega, by simp [maxReconnectDelay]; omega⟩
            · refine ih (reconnectFailCleanup s) ?_
              show min (s.reconnectDelay * 2) maxReconnectDelay ≤ 60
              exact Nat.min_le_right _ _

/-- C4: starting from the floor (as after `__init__` or any successful
connect), the sequence of backoff delays slept across consecutive failed
reconnection attempts starts at 1, is monotonically non-decreasing,
never exceeds 60, each failed attempt doubles it up to the cap, and any
successful connect or reconnect resets it to 1. -/
theorem c4_backoff_monotone_capped_reset (s : ConnState) (outs : List Bool)
    (h : s.reconnectDelay = 1) :
    List.Chain' (· ≤ ·) (reconnectDelays s outs) ∧
    (∀ d ∈ reconnectDelays s outs, 1 ≤ d ∧ d ≤ 60) ∧
    (∀ d, (reconnectDelays s outs).head? = some d → d = 1) ∧
    (initState s.url s.token).reconnectDelay = 1 ∧
    (∀ t : ConnState, (reconnectFailCleanup t).reconnectDelay =
      min (t.reconnectDelay * 2) 60) ∧
    (∀ t : ConnState, (reconnectSuccessState t).reconnectDelay = 1) ∧
    (∀ (t : ConnState) (g a : JObj), (connectRun t .ok g a).1 = .ok () →
      (connectRun t .ok g a).2.reconnectDelay = 1) := by
  refine ⟨reconnectDelays_chain_le outs s (by omega),
          reconnectDelays_mem_bounds outs s (by omega) (by omega),
          ?_, rfl, fun t => rfl, fun t => rfl, ?_⟩
  · intro d hd
    rw [reconnectDelays_head_eq _ _ _ hd, h]
  · intro t g a hok
    cases hauth : authenticate g a with
    | error e => simp [connectRun, hauth] at hok
    | ok u => simp [connectRun, hauth]

/-- C4 witness: two failures then a success from the floor sleep on a
monotone sequence of delays. -/
theorem c4_backoff_monotone_capped_reset_witness :
    List.Chain' (· ≤ ·)
      (reconnectDelays (initState "u" "t") [false, false, true]) :=
  (c4_backoff_monotone_capped_reset (initState "u" "t")
    [false, false, true] rfl).1

/-- C5: a correlated response whose `success` field is `false` makes
`send_command` raise an `HAConnectionError` whose message carries the
server-reported error code and message, and handling that response frame
keeps the listener loop running with the `connected`/`should_reconnect`
flags and the backoff untouched — the rejection never triggers the
reconnection procedure. -/
theorem c5_server_rejection_error (s : ConnState) (t c m : String)
    (e r : JObj)
    (hs : jget r "success" = some (.bool false))
    (he : jget r "error" = some (.obj e))
    (hc : jget e "code" = some (.str c))
    (hm : jget e "message" = some (.str m)) :
    handleResponse t r =
      .error (.HAConnectionError
        ("Command " ++ t ++ " failed [" ++ c ++ "]: " ++ m)) ∧
    ∃ s', listenerStep s (.text r) = .cont s' ∧
      s'.connected = s.connected ∧ s'.shouldReconnect = s.shouldReconnect ∧
      s'.reconnectDelay = s.reconnectDelay := by
  refine ⟨?_, listenerStep_text_cont s r⟩
  have hsucc : respSuccess r = false := by
    simp [respSuccess, hs, JVal.truthy]
  simp [handleResponse, hsucc, he, jgetStr, hc, hm, JVal.fmt]

/-- C5 witness: the spec scenario — id 9, `success:false`, code
`not_found`, message `x` — yields exactly the source's error message. -/
theorem c5_server_rejection_error_witness :
    handleResponse "call_service"
        [("id", JVal.num 9), ("success", JVal.bool false),
         ("error", JVal.obj [("code", JVal.str "not_found"),
                             ("message", JVal.str "x")])] =
      .error (.HAConnectionError
        "Command call_service failed [not_found]: x") :=
  (c5_server_rejection_error (initState "u" "t") "call_service"
    "not_found" "x"
    [("code", JVal.str "not_found"), ("message", JVal.str "x")]
    [("id", JVal.num 9), ("success", JVal.bool false),
     ("error", JVal.obj [("code", JVal.str "not_found"),
                         ("message", JVal.str "x")])]
    rfl rfl rfl rfl).1

/-- A `send_command` attempted while not connected raises before
touching any state. -/
theorem sendAttemptStep_of_not_connected (s : ConnState)
    (h : s.connected = false) : sendAttemptStep s = s := by
  simp [sendAttemptStep, sendGuardOk, h]

/-- The guard of `send_command` raises `HAConnectionError` while not
connected. -/
theorem sendCommandStart_of_not_connected (s : ConnState)
    (h : s.connected = false) :
    sendCommandStart s =
      .error (.HAConnectionError "Not connected to Home Assistant") := by
  simp [sendCommandStart, sendGuardOk, h]

/-- After `disconnect()` the down-state (`connected = false`,
`should_reconnect = false`) is preserved by every post-disconnect
operation, and no such operation performs a reconnection attempt. -/
theorem applyPost_flags (s : ConnState) (op : PostOp)
    (h : s.connected = false ∧ s.shouldReconnect = false) :
    ((applyPost s op).connected = false ∧
      (applyPost s op).shouldReconnect = false) ∧
    postAttemptCount s op = 0 := by
  obtain ⟨hc, hr⟩ := h
  cases op with
  | sendAttempt =>
      have hs : applyPost s .sendAttempt = s := by
        simp [applyPost, sendAttemptStep, sendGuardOk, hc]
      rw [hs]
      exact ⟨⟨hc, hr⟩, rfl⟩
  | frame f =>
      cases f with
      | text msg =>
          obtain ⟨s', hstep, hc', hr', _⟩ := listenerStep_text_cont s msg
          have hs : applyPost s (.frame (.text msg)) = s' := by
            simp [applyPost, hstep]
          rw [hs]
          exact ⟨⟨hc'.trans hc, hr'.trans hr⟩, rfl⟩
      | closed => exact ⟨⟨hc, hr⟩, rfl⟩
      | wsError => exact ⟨⟨hc, hr⟩, rfl⟩
  | dropHandling attempts =>
      have hd : (listenerDrop s).shouldReconnect = false := hr
      have hs : applyPost s (.dropHandling attempts) = listenerDrop s := by
        simp [applyPost, hd]
      have hcnt : postAttemptCount s (.dropHandling attempts) = 0 := by
        simp [postAttemptCount, hd]
      rw [hs]
      exact ⟨⟨rfl, hr⟩, hcnt⟩

/-- C6: after `disconnect()` completes, every subsequent `send_command`
call fails with `HAConnectionError`, and across any sequence of
post-disconnect operations — stray frames, listener exits with any
number of available reconnection outcomes — zero reconnection attempts
are made. -/
theorem c6_disconnect_blocks_and_no_reconnect (s : ConnState)
    (ops : List PostOp) :
    sendCommandStart (runPost (disconnect s) ops) =
      .error (.HAConnectionError "Not connected to Home Assistant") ∧
    countPost (disconnect s) ops = 0 := by
  have hinv : ∀ (l : List PostOp) (t : ConnState),
      t.connected = false ∧ t.shouldReconnect = false →
      ((runPost t l).connected = false ∧
        (runPost t l).shouldReconnect = false) ∧ countPost t l = 0 := by
    intro l
    induction l with
    | nil => intro t ht; exact ⟨ht, rfl⟩
    | cons op l ih =>
        intro t ht
        have h1 := applyPost_flags t op ht
        have h2 := ih (applyPost t op) h1.1
        refine ⟨h2.1, ?_⟩
        show postAttemptCount t op + countPost (applyPost t op) l = 0
        rw [h1.2, h2.2]
  have hd : (disconnect s).connected = false ∧
      (disconnect s).shouldReconnect = false := ⟨rfl, rfl⟩
  have h3 := hinv ops (disconnect s) hd
  exact ⟨sendCommandStart_of_not_connected _ h3.1.1, h3.2⟩

/-- C10: a correlated response whose id is not in the correlation table
(for instance because that request already timed out and was popped) is
discarded with no effect at all: the listener continues with the state —
table, every other pending request, and both flags — exactly unchanged. -/
theorem c10_unmatched_response_discarded (s : ConnState) (msg : JObj) (n : Int)
    (hid : jget msg "id" = some (.num n)) (hn : n ∉ s.pendingKeys) :
    listenerStep s (.text msg) = .cont s := by
  have hm : msgIdOf msg = some n := by unfold msgIdOf; rw [hid]
  simp [listenerStep, hm, hn]

/-- Correlation soundness is preserved by every atomic step of the
system: registration, frame handling, drop handling, timeout pops and
`disconnect`. -/
theorem futOk_traceStep (s : ConnState) (e : TraceEv) (h : FutOk s) :
    FutOk (traceStep s e) := by
  cases e with
  | send =>
      intro i msg hi
      by_cases hg : sendGuardOk s = true
      · replace hi : (registerNext s).2.futures i = .result msg := by
          have hs : traceStep s .send = (registerNext s).2 := by
            simp [traceStep, sendAttemptStep, hg]
          rw [hs] at hi
          exact hi
        replace hi : (if i = s.msg_id + 1 then FutureVal.unresolved
            else s.futures i) = .result msg := hi
        by_cases he : i = s.msg_id + 1
        · rw [if_pos he] at hi; simp at hi
        · rw [if_neg he] at hi; exact h i msg hi
      · have hs : traceStep s .send = s := by
          simp [traceStep, sendAttemptStep, hg]
        rw [hs] at hi
        exact h i msg hi
  | frame f =>
      cases f with
      | text msg0 =>
          intro i msg hi
          cases hm : msgIdOf msg0 with
          | none =>
              have hs : traceStep s (.frame (.text msg0)) = s := by
                simp [traceStep, listenerStep, hm]
              rw [hs] at hi
              exact h i msg hi
          | some n =>
              by_cases hn : n ∈ s.pendingKeys
              · have hs : traceStep s (.frame (.text msg0)) =
                    { s with pendingKeys := s.pendingKeys.erase n,
                             futures := resolveFuture s n msg0 } := by
                  simp [traceStep, listenerStep, hm, hn]
                rw [hs] at hi
                replace hi : resolveFuture s n msg0 i = .result msg := hi
                simp only [resolveFuture] at hi
                by_cases he : i = n
                · rw [if_pos he] at hi
                  cases hf : s.futures n with
                  | unresolved =>
                      rw [hf] at hi
                      simp at hi
                      rw [← hi, he]
                      exact msgIdOf_jget msg0 n hm
                  | result m0 =>
                      rw [hf] at hi
                      refine h i msg ?_
                      rw [he, hf]
                      exact hi
                  | failure e0 => rw [hf] at hi; simp at hi
                  | cancelled => rw [hf] at hi; simp at hi
                · rw [if_neg he] at hi; exact h i msg hi
              · have hs : traceStep s (.frame (.text msg0)) = s := by
                  simp [traceStep, listenerStep, hm, hn]
                rw [hs] at hi
                exact h i msg hi
      | closed =>
          intro i msg hi
          exact h i msg hi
      | wsError =>
          intro i msg hi
          exact h i msg hi
  | drop =>
      intro i msg hi
      replace hi : failPending s
          (.HAConnectionLost "Connection lost while awaiting response") i =
          .result msg := hi
      exact futOk_of_failPending s _ h i msg hi
  | timeoutPop j =>
      intro i msg hi
      replace hi : (if i = j then
          (match s.futures j with
           | .unresolved => FutureVal.cancelled
           | o => o)
          else s.futures i) = .result msg := hi
      by_cases he : i = j
      · rw [if_pos he] at hi
        cases hf : s.futures j with
        | unresolved => rw [hf] at hi; simp at hi
        | result m0 =>
            rw [hf] at hi
            refine h i msg ?_
            rw [he, hf]
            exact hi
        | failure e0 => rw [hf] at hi; simp at hi
        | cancelled => rw [hf] at hi; simp at hi
      · rw [if_neg he] at hi; exact h i msg hi
  | disconnectEv =>
      intro i msg hi
      replace hi : failPending
          { s with shouldReconnect := false, connected := false,
                   listenerRunning := false, wsOpen := false,
                   sessionOpen := false }
          (.HAConnectionLost "WebSocket disconnected while awaiting response") i =
          .result msg := hi
      exact futOk_of_failPending _ _ (fun i msg hm => h i msg hm) i msg hi

/-- C1: for every interleaving of `send_command` registrations, inbound
frames, drops, timeout pops and disconnects on one connection, any
future that ends up resolved with a response message was resolved with
the message whose `id` field equals that future's own request id — so
each `send_command` call that receives a response receives exactly the
response sent for the ID it allocated, regardless of arrival order. -/
theorem c1_response_correlation (s : ConnState) (evs : List TraceEv)
    (h : FutOk s) (i : Int) (msg : JObj)
    (hres : (runTrace s evs).futures i = .result msg) :
    jget msg "id" = some (.num i) := by
  induction evs generalizing s with
  | nil => exact h i msg hres
  | cons e es ih => exact ih (traceStep s e) (futOk_traceStep s e h) hres

/-- C1 witness: on a fresh connected client, a send of id 1 followed by
the arrival of the response with id 1 resolves that call's future with
that exact message, whose id field is 1. -/
theorem c1_response_correlation_witness :
    jget [("id", JVal.num 1), ("success", JVal.bool true)] "id" =
      some (.num 1) :=
  c1_response_correlation
    { initState "u" "t" with connected := true, wsOpen := true }
    [.send, .frame (.text [("id", JVal.num 1), ("success", JVal.bool true)])]
    (by intro i msg hm; simp [initState] at hm)
    1 [("id", JVal.num 1), ("success", JVal.bool true)] rfl

/-- C10 witness: a response with id 42 arriving at a client with an
empty table leaves the state unchanged. -/
theorem c10_unmatched_response_discarded_witness :
    listenerStep (initState "u" "t") (.text [("id", JVal.num 42)]) =
      .cont (initState "u" "t") :=
  c10_unmatched_response_discarded (initState "u" "t")
    [("id", JVal.num 42)] 42 rfl (by simp [initState])

end HaMcp
